import Mathlib

/-!
Verification of the retrieval-and-chunking core of the
General-Health-Patient-Education-Chatbot (RAG) repository.

Texts are embedded as `List Char` (Python `str`), machine floats as `ℚ`
(only ordering and arithmetic structure of scores matter to the claims),
and Python exceptions as `Except String`.
-/

/-! ## Chunker (`src/chunker.py`) -/

/-- The ASCII whitespace characters stripped by Python `str.strip()`. -/
def isPySpace (c : Char) : Bool :=
  c = ' ' || c = '\t' || c = '\n' || c = '\r' || c = '\x0b' || c = '\x0c'

/-- Python `str.strip()`: drop leading and trailing whitespace. -/
def pyStrip (l : List Char) : List Char :=
  (((l.dropWhile isPySpace).reverse).dropWhile isPySpace).reverse

/-- The `while start < text_length` loop of `chunk_text`: take the slice
`text[start : start + chunk_size]`, strip it, append it, and advance
`start` by `step` (`chunk_size - chunk_overlap` at the call site).
The loop is only reached with `step > 0`; the guard `0 < step` makes the
Lean function total (the Python loop would not terminate for `step = 0`). -/
def chunkLoop (text : List Char) (chunk_size step start : Nat) : List (List Char) :=
  if h : start < text.length ∧ 0 < step then
    pyStrip ((text.drop start).take chunk_size) :: chunkLoop text chunk_size step (start + step)
  else
    []
termination_by text.length - start
decreasing_by omega

/-- `chunk_text(text, chunk_size, chunk_overlap)` from `src/chunker.py`:
the empty-text early return, the `chunk_overlap >= chunk_size` validation
(Python `ValueError`), then the sliding-window loop starting at offset 0. -/
def chunk_text (text : List Char) (chunk_size chunk_overlap : Nat) :
    Except String (List (List Char)) :=
  if text.isEmpty then Except.ok []
  else if chunk_size ≤ chunk_overlap then
    Except.error "chunk_overlap must be smaller than chunk_size"
  else
    Except.ok (chunkLoop text chunk_size (chunk_size - chunk_overlap) 0)

/-- Number of window starts `0, step, 2*step, ...` that are `< len`:
the ceiling of `len / step`. -/
def numChunks (len step : Nat) : Nat := (len + step - 1) / step

lemma numChunks_zero (step : Nat) (hs : 0 < step) : numChunks 0 step = 0 := by
  unfold numChunks
  exact Nat.div_eq_of_lt (by omega)

lemma numChunks_step (a step : Nat) (ha : 0 < a) (hs : 0 < step) :
    numChunks a step = numChunks (a - step) step + 1 := by
  unfold numChunks
  rcases Nat.le_total a step with h | h
  · have h0 : a - step = 0 := by omega
    rw [h0]
    have e1 : a + step - 1 = (a - 1) + step := by omega
    rw [e1, Nat.add_div_right _ hs]
    have h1 : (a - 1) / step = 0 := Nat.div_eq_of_lt (by omega)
    have h2 : (0 + step - 1) / step = 0 := Nat.div_eq_of_lt (by omega)
    omega
  · have e1 : a + step - 1 = (a - step + step - 1) + step := by omega
    rw [e1, Nat.add_div_right _ hs]

/-- Closed form of the chunking loop: starting from `start`, the produced
chunks are the stripped windows at `start, start + step, ...`. -/
lemma chunkLoop_closed (text : List Char) (cs step : Nat) (hs : 0 < step) :
    ∀ start, chunkLoop text cs step start =
      (List.range (numChunks (text.length - start) step)).map
        (fun i => pyStrip ((text.drop (start + i * step)).take cs)) := by
  have key : ∀ n start, text.length - start ≤ n →
      chunkLoop text cs step start =
        (List.range (numChunks (text.length - start) step)).map
          (fun i => pyStrip ((text.drop (start + i * step)).take cs)) := by
    intro n
    induction n with
    | zero =>
      intro start hle
      have hge : ¬ start < text.length := by omega
      rw [chunkLoop]
      rw [dif_neg (by omega)]
      have h0 : text.length - start = 0 := by omega
      rw [h0, numChunks_zero step hs]
      simp
    | succ n ih =>
      intro start hle
      by_cases hlt : start < text.length
      · rw [chunkLoop, dif_pos ⟨hlt, hs⟩]
        rw [ih (start + step) (by omega)]
        have harith : text.length - (start + step) = (text.length - start) - step := by omega
        rw [harith]
        rw [numChunks_step (text.length - start) step (by omega) hs]
        rw [List.range_succ_eq_map]
        rw [List.map_cons, List.map_map]
        congr 1
        · norm_num
        · refine List.map_congr_left fun i _ => ?_
          simp only [Function.comp_apply]
          have e : start + step + i * step = start + Nat.succ i * step := by
            rw [Nat.succ_mul]; omega
          rw [e]
      · rw [chunkLoop, dif_neg (by omega)]
        have h0 : text.length - start = 0 := by omega
        rw [h0, numChunks_zero step hs]
        simp
  intro start
  exact key (text.length - start) start (le_refl _)

/-- For valid parameters, `chunk_text` succeeds and equals the sliding-window
sequence: the `i`-th output is the stripped window `[i*step, i*step + cs)`,
and there is one window per start offset `< text.length`. -/
lemma chunk_text_ok (text : List Char) (cs co : Nat) (h : co < cs) :
    chunk_text text cs co =
      Except.ok ((List.range (numChunks text.length (cs - co))).map
        (fun i => pyStrip ((text.drop (i * (cs - co))).take cs))) := by
  unfold chunk_text
  by_cases he : text.isEmpty
  · rw [if_pos he]
    have h0 : text.length = 0 := by
      cases text with
      | nil => rfl
      | cons a l => simp [List.isEmpty] at he
    rw [h0, numChunks_zero _ (by omega)]
    simp
  · rw [if_neg he, if_neg (by omega)]
    rw [chunkLoop_closed text cs (cs - co) (by omega) 0]
    simp

/-- C3: for every text and every valid parameter pair
(`chunk_size > 0`, `0 ≤ chunk_overlap < chunk_size`), `chunk_text` returns
exactly the sequence obtained by starting at offset 0, repeatedly taking the
window `[start, start + chunk_size)`, stripping leading/trailing whitespace,
appending it even when empty, advancing `start` by
`chunk_size - chunk_overlap`, and stopping once `start ≥ text.length`;
in particular the empty text yields `[]` without error. -/
theorem chunk_text_is_sliding_window (text : List Char) (cs co : Nat) (h : co < cs) :
    chunk_text text cs co =
      Except.ok ((List.range (numChunks text.length (cs - co))).map
        (fun i => pyStrip ((text.drop (i * (cs - co))).take cs))) :=
  chunk_text_ok text cs co h

/-- Witness for C3 at a concrete input. -/
theorem chunk_text_is_sliding_window_witness :
    (1 : Nat) < 3 ∧
    chunk_text ['a', 'b', ' ', 'c', 'd'] 3 1 =
      Except.ok ((List.range (numChunks 5 2)).map
        (fun i => pyStrip (((['a', 'b', ' ', 'c', 'd'] : List Char).drop (i * 2)).take 3))) :=
  ⟨by omega, chunk_text_is_sliding_window ['a', 'b', ' ', 'c', 'd'] 3 1 (by omega)⟩

/-- C4: for valid parameters, every character position of the text is covered
by at least one pre-strip window `[i * step, i * step + chunk_size)` taken by
`chunk_text`. -/
theorem chunk_text_windows_cover (text : List Char) (cs co : Nat) (h : co < cs)
    (p : Nat) (hp : p < text.length) :
    ∃ res i, chunk_text text cs co = Except.ok res ∧ i < res.length ∧
      i * (cs - co) ≤ p ∧ p < i * (cs - co) + cs := by
  have hs : 0 < cs - co := by omega
  refine ⟨_, p / (cs - co), chunk_text_ok text cs co h, ?_, ?_, ?_⟩
  · rw [List.length_map, List.length_range]
    unfold numChunks
    have h1 : (p + (cs - co)) / (cs - co) ≤ (text.length + (cs - co) - 1) / (cs - co) :=
      Nat.div_le_div_right (by omega)
    rw [Nat.add_div_right _ hs] at h1
    omega
  · exact Nat.div_mul_le_self p (cs - co)
  · have h1 := Nat.div_add_mod p (cs - co)
    have h2 : p % (cs - co) < cs - co := Nat.mod_lt _ hs
    rw [Nat.mul_comm] at h1
    omega

/-- Witness for C4 at a concrete input. -/
theorem chunk_text_windows_cover_witness :
    (1 : Nat) < 2 ∧ (3 : Nat) < (['a', 'b', 'c', 'd'] : List Char).length ∧
    (∃ res i, chunk_text ['a', 'b', 'c', 'd'] 2 1 = Except.ok res ∧ i < res.length ∧
      i * (2 - 1) ≤ 3 ∧ 3 < i * (2 - 1) + 2) :=
  ⟨by omega, by decide,
    chunk_text_windows_cover ['a', 'b', 'c', 'd'] 2 1 (by omega) 3 (by decide)⟩

/-- Counterexample to C2 as stated: with `chunk_size = 2 > 0` and
`chunk_overlap = 2 ≥ chunk_size`, the empty text does not produce a
configuration error — `chunk_text` returns `[]` successfully, because the
emptiness early-return precedes the validation. -/
theorem chunk_text_overlap_empty_counterexample :
    (0 : Nat) < 2 ∧ (2 : Nat) ≤ 2 ∧ chunk_text [] 2 2 = Except.ok [] :=
  ⟨by omega, le_refl 2, rfl⟩

/-- C2 (amended): for every `chunk_size > 0` and
`chunk_overlap ≥ chunk_size`, `chunk_text` fails with the configuration
error for every non-empty input text (the empty text instead returns `[]`). -/
theorem chunk_text_overlap_error (text : List Char) (cs co : Nat)
    (hcs : 0 < cs) (hne : text ≠ []) (hco : cs ≤ co) :
    chunk_text text cs co = Except.error "chunk_overlap must be smaller than chunk_size" := by
  unfold chunk_text
  rw [if_neg (by simpa [List.isEmpty_iff] using hne), if_pos hco]

/-- Witness for the amended C2 at a concrete input. -/
theorem chunk_text_overlap_error_witness :
    (0 : Nat) < 1 ∧ (['a'] : List Char) ≠ [] ∧ (1 : Nat) ≤ 1 ∧
    chunk_text ['a'] 1 1 = Except.error "chunk_overlap must be smaller than chunk_size" :=
  ⟨by omega, by decide, le_refl 1,
    chunk_text_overlap_error ['a'] 1 1 (by omega) (by decide) (le_refl 1)⟩

/-- C10: the empty input text returns `[]` before any parameter validation:
for all `chunk_size` and `chunk_overlap` — even `chunk_overlap ≥ chunk_size`
— `chunk_text "" chunk_size chunk_overlap` is `ok []` and raises no error. -/
theorem chunk_text_empty_before_validation (cs co : Nat) :
    chunk_text [] cs co = Except.ok [] := rfl

/-! ## Retriever (`src/retriever.py`)

The sentence-transformer query embedder is an external model; the functions
below take it as an explicit parameter `embedQuery`. `np.argsort` is
external too: the source calls it with the default sort kind, and NumPy
documents only that the result indexes the array in ascending order — the
relative order of equal entries is unspecified (the default quicksort kind
is not stable). The retriever therefore also takes the argsort as a
parameter, and theorems constrain it only by that documented contract,
`NpArgsortSpec`. -/

/-- Metadata entry of the index: `{filename, chunk_index, text}`. -/
structure ChunkMeta where
  filename : String
  chunk_index : Nat
  text : List Char
deriving DecidableEq

/-- A record returned by `retrieve_top_k`. -/
structure RetrievalRecord where
  score : ℚ
  filename : String
  chunk_index : Nat
  text : List Char
deriving DecidableEq

/-- `np.ndarray.size` of a matrix held as a list of rows: total entry count. -/
def npSize (m : List (List ℚ)) : Nat := (m.map List.length).sum

/-- `cosine_similarity_matrix`: dot product of every row against the query
vector (both unit-normalized in the source, so this is cosine similarity). -/
def dotQ (v w : List ℚ) : ℚ := ((v.zip w).map (fun p => p.1 * p.2)).sum

def cosine_similarity_matrix (query_vec : List ℚ) (doc_embeddings : List (List ℚ)) : List ℚ :=
  if npSize doc_embeddings = 0 then []
  else doc_embeddings.map (fun row => dotQ row query_vec)

/-- Everything NumPy documents about `np.argsort(xs)` (for any sort kind):
the result is a permutation of the positions `0, ..., len - 1` that puts
the values in ascending order. Nothing is guaranteed about the relative
order of positions holding equal values. -/
def NpArgsortSpec (argsort : List ℚ → List Nat) : Prop :=
  ∀ xs : List ℚ, (argsort xs).Perm (List.range xs.length) ∧
    (argsort xs).Pairwise (fun i j => xs.getD i 0 ≤ xs.getD j 0)

/-- Build the result record for a selected index, as in the loop body of
`retrieve_top_k`: `{"score": sims[idx], **metadata[idx]}`. -/
def recordAt (sims : List ℚ) (metadata : List ChunkMeta) (idx : Nat) : RetrievalRecord :=
  let m := metadata.getD idx ⟨"", 0, []⟩
  ⟨sims.getD idx 0, m.filename, m.chunk_index, m.text⟩

/-- `retrieve_top_k(query, doc_embeddings, metadata, k)` from
`src/retriever.py`: empty-index guard, query embedding, similarity scores,
`k = min(k, len(sims))`, `top_indices = np.argsort(-sims)[:k]`, and the
record-building loop. `argsort` is the external `np.argsort`. -/
def retrieve_top_k (argsort : List ℚ → List Nat) (embedQuery : String → List ℚ)
    (query : String) (doc_embeddings : List (List ℚ)) (metadata : List ChunkMeta)
    (k : Nat) : List RetrievalRecord :=
  if npSize doc_embeddings = 0 ∨ metadata.isEmpty then []
  else
    let query_vec := embedQuery query
    let sims := cosine_similarity_matrix query_vec doc_embeddings
    let k2 := min k sims.length
    let top_indices := (argsort (sims.map (fun s => -s))).take k2
    top_indices.map (recordAt sims metadata)

/-- Ascending order on indices by value, equal values by descending
original index — the opposite of a stable argsort's tie order. -/
def keyRelRev (f : Nat → ℚ) (i j : Nat) : Prop := f i < f j ∨ (f i = f j ∧ j ≤ i)

instance (f : Nat → ℚ) : DecidableRel (keyRelRev f) := fun i j => by
  unfold keyRelRev
  infer_instance

lemma keyRelRev_total (f : Nat → ℚ) : ∀ i j, keyRelRev f i j ∨ keyRelRev f j i := by
  intro i j
  rcases lt_trichotomy (f i) (f j) with h | h | h
  · exact Or.inl (Or.inl h)
  · rcases Nat.le_total j i with hij | hij
    · exact Or.inl (Or.inr ⟨h, hij⟩)
    · exact Or.inr (Or.inr ⟨h.symm, hij⟩)
  · exact Or.inr (Or.inl h)

lemma keyRelRev_trans (f : Nat → ℚ) :
    ∀ i j t, keyRelRev f i j → keyRelRev f j t → keyRelRev f i t := by
  intro i j t hij hjt
  rcases hij with h1 | ⟨h1, h1'⟩ <;> rcases hjt with h2 | ⟨h2, h2'⟩
  · exact Or.inl (h1.trans h2)
  · exact Or.inl (h2 ▸ h1)
  · exact Or.inl (h1 ▸ h2)
  · exact Or.inr ⟨h1.trans h2, h2'.trans h1'⟩

instance (f : Nat → ℚ) : IsTotal Nat (keyRelRev f) := ⟨keyRelRev_total f⟩

instance (f : Nat → ℚ) : IsTrans Nat (keyRelRev f) := ⟨keyRelRev_trans f⟩

/-- A sorting function allowed by `NpArgsortSpec` that orders equal values
by descending original index: one legal behavior of an unstable argsort. -/
def antiStableArgsort (xs : List ℚ) : List Nat :=
  List.insertionSort (keyRelRev (fun i => xs.getD i 0)) (List.range xs.length)

lemma antiStableArgsort_conforms : NpArgsortSpec antiStableArgsort := by
  intro xs
  refine ⟨List.perm_insertionSort _ _, ?_⟩
  exact List.Pairwise.imp
    (fun h => by
      rcases h with h | ⟨h, _⟩
      · exact le_of_lt h
      · exact le_of_eq h)
    (List.sorted_insertionSort _ (List.range xs.length))

lemma getD_map_neg (sims : List ℚ) (t : Nat) :
    (sims.map (fun s => -s)).getD t 0 = -(sims.getD t 0) := by
  induction sims generalizing t with
  | nil => simp
  | cons a as ih =>
    cases t with
    | zero => simp
    | succ n => simpa using ih n

lemma sims_length (embedQuery : String → List ℚ) (query : String)
    (dembs : List (List ℚ)) (hne : npSize dembs ≠ 0) :
    (cosine_similarity_matrix (embedQuery query) dembs).length = dembs.length := by
  unfold cosine_similarity_matrix
  rw [if_neg hne, List.length_map]

/-- Concrete query-embedding functions used by witnesses and the
counterexample. -/
def unitEmbed : String → List ℚ := fun _ => [1]

def zeroEmbed : String → List ℚ := fun _ => []

/-- Counterexample to C1's stable-tie conclusion: `antiStableArgsort`
satisfies everything the source guarantees about `np.argsort`
(`retriever.py` uses the default, not-stable sort kind), yet on two rows
with tied scores `retrieve_top_k` returns the record with the higher
original row index first. The lower-index-first tie-break claimed for the
output order is therefore not established by the code. -/
theorem retrieve_top_k_tie_break_counterexample :
    NpArgsortSpec antiStableArgsort ∧
    retrieve_top_k antiStableArgsort unitEmbed "q" [[1], [1]]
        [⟨"a.txt", 0, []⟩, ⟨"b.txt", 1, []⟩] 2
      = [⟨1, "b.txt", 1, []⟩, ⟨1, "a.txt", 0, []⟩] := by
  refine ⟨antiStableArgsort_conforms, ?_⟩
  have hdot : dotQ [1] [1] = (1 : ℚ) := by
    unfold dotQ
    norm_num
  have hsims : cosine_similarity_matrix (unitEmbed "q") [[1], [1]] = [1, 1] := by
    unfold cosine_similarity_matrix unitEmbed
    rw [if_neg (by decide)]
    simp only [List.map_cons, List.map_nil, hdot]
  unfold retrieve_top_k
  rw [if_neg (by decide)]
  simp only [hsims]
  decide

/-- C1 (amended): for every argsort satisfying NumPy's documented contract,
every query embedding function, query, non-empty embedding matrix of `N`
rows and metadata list of length `N`, and every requested count `k`,
`retrieve_top_k` returns exactly `min k N` records (never failing when
`k > N`), and the output is the first `min k N` records of a full
descending sort on similarity score: an ordering of all `N` row indices
that is descending on score. The order of equal scores is not guaranteed
(see the counterexample above). -/
theorem retrieve_top_k_ranked (argsort : List ℚ → List Nat)
    (h_as : NpArgsortSpec argsort) (embedQuery : String → List ℚ) (query : String)
    (dembs : List (List ℚ)) (md : List ChunkMeta) (k : Nat)
    (hne : npSize dembs ≠ 0) (hlen : md.length = dembs.length) :
    (retrieve_top_k argsort embedQuery query dembs md k).length = min k dembs.length ∧
    ∃ order : List Nat,
      order.Perm (List.range dembs.length) ∧
      order.Pairwise (fun i j =>
        (cosine_similarity_matrix (embedQuery query) dembs).getD j 0
          ≤ (cosine_similarity_matrix (embedQuery query) dembs).getD i 0) ∧
      retrieve_top_k argsort embedQuery query dembs md k
        = (order.take (min k dembs.length)).map
            (recordAt (cosine_similarity_matrix (embedQuery query) dembs) md) := by
  have hguard : ¬ (npSize dembs = 0 ∨ md.isEmpty = true) := by
    intro hor
    rcases hor with h | h
    · exact hne h
    · have h0 : md = [] := List.isEmpty_iff.mp h
      have h1 : dembs = [] := by
        apply List.length_eq_zero.mp
        rw [← hlen, h0]
        rfl
      exact hne (by simp [h1, npSize])
  have hsims := sims_length embedQuery query dembs hne
  obtain ⟨hperm, hsorted⟩ :=
    h_as ((cosine_similarity_matrix (embedQuery query) dembs).map (fun s => -s))
  have hlen_as : (argsort ((cosine_similarity_matrix (embedQuery query) dembs).map
      (fun s => -s))).length = dembs.length := by
    have h1 := hperm.length_eq
    rw [List.length_range, List.length_map, hsims] at h1
    exact h1
  constructor
  · unfold retrieve_top_k
    rw [if_neg hguard]
    simp only [List.length_map, List.length_take, hlen_as, hsims]
    omega
  · refine ⟨argsort ((cosine_similarity_matrix (embedQuery query) dembs).map (fun s => -s)),
      ?_, ?_, ?_⟩
    · have h1 := hperm
      rwa [List.length_map, hsims] at h1
    · refine List.Pairwise.imp (fun h => ?_) hsorted
      rw [getD_map_neg, getD_map_neg] at h
      exact neg_le_neg_iff.mp h
    · unfold retrieve_top_k
      rw [if_neg hguard]
      simp only [hsims]

/-- Witness for the amended C1 at a concrete input, with the conforming
`antiStableArgsort` standing in for `np.argsort`. -/
theorem retrieve_top_k_ranked_witness :
    NpArgsortSpec antiStableArgsort ∧
    npSize [[(2 : ℚ)], [(3 : ℚ)]] ≠ 0 ∧
    ([⟨"a.txt", 0, ['x']⟩, ⟨"b.txt", 1, ['y']⟩] : List ChunkMeta).length
        = [[(2 : ℚ)], [(3 : ℚ)]].length ∧
    ((retrieve_top_k antiStableArgsort unitEmbed "q" [[2], [3]]
          [⟨"a.txt", 0, ['x']⟩, ⟨"b.txt", 1, ['y']⟩] 5).length
        = min 5 ([[(2 : ℚ)], [(3 : ℚ)]] : List (List ℚ)).length ∧
     ∃ order : List Nat,
       order.Perm (List.range ([[(2 : ℚ)], [(3 : ℚ)]] : List (List ℚ)).length) ∧
       order.Pairwise (fun i j =>
         (cosine_similarity_matrix (unitEmbed "q") [[2], [3]]).getD j 0
           ≤ (cosine_similarity_matrix (unitEmbed "q") [[2], [3]]).getD i 0) ∧
       retrieve_top_k antiStableArgsort unitEmbed "q" [[2], [3]]
           [⟨"a.txt", 0, ['x']⟩, ⟨"b.txt", 1, ['y']⟩] 5
         = (order.take (min 5 ([[(2 : ℚ)], [(3 : ℚ)]] : List (List ℚ)).length)).map
             (recordAt (cosine_similarity_matrix (unitEmbed "q") [[2], [3]])
               [⟨"a.txt", 0, ['x']⟩, ⟨"b.txt", 1, ['y']⟩])) :=
  ⟨antiStableArgsort_conforms, by decide, rfl,
    retrieve_top_k_ranked antiStableArgsort antiStableArgsort_conforms unitEmbed "q"
      [[2], [3]] [⟨"a.txt", 0, ['x']⟩, ⟨"b.txt", 1, ['y']⟩] 5 (by decide) rfl⟩

/-- C8: `retrieve_top_k` on an empty index — embedding matrix of size zero or
empty metadata list — returns `[]` immediately for every argsort, query and
`k`, and never fails. -/
theorem retrieve_top_k_empty_index (argsort : List ℚ → List Nat)
    (embedQuery : String → List ℚ) (query : String)
    (dembs : List (List ℚ)) (md : List ChunkMeta) (k : Nat)
    (h : npSize dembs = 0 ∨ md.isEmpty = true) :
    retrieve_top_k argsort embedQuery query dembs md k = [] := by
  unfold retrieve_top_k
  rw [if_pos h]

/-- Witness for C8 at a concrete input. -/
theorem retrieve_top_k_empty_index_witness :
    (npSize ([] : List (List ℚ)) = 0 ∨ ([] : List ChunkMeta).isEmpty = true) ∧
    retrieve_top_k antiStableArgsort zeroEmbed "what is diabetes" [] [] 5 = [] :=
  ⟨Or.inl rfl,
    retrieve_top_k_empty_index antiStableArgsort zeroEmbed "what is diabetes" [] [] 5
      (Or.inl rfl)⟩

/-! ## Index Builder (`src/embeddings.py`)

The sentence-transformer batch encoder is external; the builder takes it as
the parameter `embed`. A `numpy` matrix with its shape is modelled as
`NpMatrix`; `np.zeros((0, 0))` is `⟨0, 0, []⟩`. The per-file chunk mapping
(a Python dict, ordered by insertion) is an association list. -/

structure NpMatrix where
  rows : Nat
  cols : Nat
  entries : List (List ℚ)
deriving DecidableEq

/-- The double loop of `build_embeddings_from_chunks`: for each file in
order, for each chunk with its `enumerate` index, skip the chunk when its
stripped text is empty, otherwise record `{filename, chunk_index, text}`.
(The source appends to `all_texts` and `metadata` in the same pass;
`all_texts` is recovered below as `metadata.map text`.) -/
def flattenChunks (chunks_by_file : List (String × List (List Char))) : List ChunkMeta :=
  chunks_by_file.flatMap (fun p =>
    (p.2.enum.filter (fun q => !(pyStrip q.2).isEmpty)).map
      (fun q => ⟨p.1, q.1, q.2⟩))

/-- `build_embeddings_from_chunks(chunks_by_file)`: build the flattened
texts and metadata, return `(zeros((0,0)), [])` when no text survives,
otherwise embed the full batch. -/
def build_embeddings_from_chunks (embed : List (List Char) → NpMatrix)
    (chunks_by_file : List (String × List (List Char))) : NpMatrix × List ChunkMeta :=
  let metadata := flattenChunks chunks_by_file
  let all_texts := metadata.map (fun m => m.text)
  if all_texts.isEmpty then (⟨0, 0, []⟩, [])
  else (embed all_texts, metadata)

/-- Spec-side definition: all per-file chunk lists flattened in order into
`(filename, chunk_index, text)` triples, with no skipping. -/
def flattenAll (chunks_by_file : List (String × List (List Char))) : List ChunkMeta :=
  chunks_by_file.flatMap (fun p => p.2.enum.map (fun q => ⟨p.1, q.1, q.2⟩))

lemma filter_map_comm {α β : Type} (f : α → β) (pb : β → Bool) (pa : α → Bool)
    (hp : ∀ a, pb (f a) = pa a) (l : List α) :
    (l.filter pa).map f = (l.map f).filter pb := by
  induction l with
  | nil => rfl
  | cons a rest ih =>
    by_cases h : pa a
    · rw [List.filter_cons_of_pos (by simpa using h), List.map_cons, List.map_cons,
        List.filter_cons_of_pos (by simpa [hp a] using h), ih]
    · rw [List.filter_cons_of_neg (by simpa using h), List.map_cons,
        List.filter_cons_of_neg (by simp [hp a, h]), ih]

lemma flattenChunks_eq_filter (chunks_by_file : List (String × List (List Char))) :
    flattenChunks chunks_by_file
      = (flattenAll chunks_by_file).filter (fun m => !(pyStrip m.text).isEmpty) := by
  unfold flattenChunks flattenAll
  induction chunks_by_file with
  | nil => rfl
  | cons p rest ih =>
    rw [List.flatMap_cons, List.flatMap_cons, List.filter_append, ih]
    congr 1
    exact filter_map_comm (fun q => (⟨p.1, q.1, q.2⟩ : ChunkMeta))
      (fun m => !(pyStrip m.text).isEmpty) (fun q => !(pyStrip q.2).isEmpty)
      (fun q => rfl) p.2.enum

/-- C5: `build_embeddings_from_chunks` produces as metadata exactly the
per-file chunk lists flattened in order into `(filename, chunk_index, text)`
triples with the whitespace-only chunks skipped; hence no metadata entry
carries empty or whitespace-only text; and when the flattened list is empty
it returns the `(0, 0)` matrix and the empty metadata list, for every
embedding function, without failing. -/
theorem build_embeddings_flattening (embed : List (List Char) → NpMatrix)
    (chunks_by_file : List (String × List (List Char))) :
    (build_embeddings_from_chunks embed chunks_by_file).2
        = (flattenAll chunks_by_file).filter (fun m => !(pyStrip m.text).isEmpty) ∧
    (∀ m ∈ (build_embeddings_from_chunks embed chunks_by_file).2, pyStrip m.text ≠ []) ∧
    ((flattenAll chunks_by_file).filter (fun m => !(pyStrip m.text).isEmpty) = [] →
      build_embeddings_from_chunks embed chunks_by_file = (⟨0, 0, []⟩, [])) := by
  have hsnd : (build_embeddings_from_chunks embed chunks_by_file).2
      = flattenChunks chunks_by_file ∨
      (flattenChunks chunks_by_file = [] ∧
        build_embeddings_from_chunks embed chunks_by_file = (⟨0, 0, []⟩, [])) := by
    cases hfc : flattenChunks chunks_by_file with
    | nil =>
      refine Or.inr ⟨rfl, ?_⟩
      unfold build_embeddings_from_chunks
      rw [hfc]
      rfl
    | cons a rest =>
      refine Or.inl ?_
      unfold build_embeddings_from_chunks
      rw [hfc]
      rfl
  refine ⟨?_, ?_, ?_⟩
  · rcases hsnd with h | ⟨h1, h2⟩
    · rw [h, flattenChunks_eq_filter]
    · rw [h2, ← flattenChunks_eq_filter, h1]
  · intro m hm
    rcases hsnd with h | ⟨h1, h2⟩
    · rw [h, flattenChunks_eq_filter] at hm
      have := List.of_mem_filter hm
      simpa [List.isEmpty_iff] using this
    · rw [h2] at hm
      exact absurd hm (List.not_mem_nil m)
  · intro hempty
    rw [← flattenChunks_eq_filter] at hempty
    unfold build_embeddings_from_chunks
    rw [hempty]
    rfl

/-- Witness for C5 at a concrete input (one real chunk, one whitespace-only
chunk that must be skipped). -/
theorem build_embeddings_flattening_witness :
    (build_embeddings_from_chunks (fun _ => ⟨1, 1, [[1]]⟩)
          [("diabetes.txt", [['h', 'i'], [' ']])]).2
        = (flattenAll [("diabetes.txt", [['h', 'i'], [' ']])]).filter
            (fun m => !(pyStrip m.text).isEmpty) ∧
    (∀ m ∈ (build_embeddings_from_chunks (fun _ => ⟨1, 1, [[1]]⟩)
          [("diabetes.txt", [['h', 'i'], [' ']])]).2, pyStrip m.text ≠ []) ∧
    ((flattenAll [("diabetes.txt", [['h', 'i'], [' ']])]).filter
          (fun m => !(pyStrip m.text).isEmpty) = [] →
      build_embeddings_from_chunks (fun _ => ⟨1, 1, [[1]]⟩)
          [("diabetes.txt", [['h', 'i'], [' ']])] = (⟨0, 0, []⟩, [])) :=
  build_embeddings_flattening (fun _ => ⟨1, 1, [[1]]⟩) [("diabetes.txt", [['h', 'i'], [' ']])]

/-! ## Answer Composer (`src/rag_pipeline.py`) -/

/-- `text.replace("\r", " ").replace("\n", " ")` from `_clean_text`. -/
def replaceNewlines (l : List Char) : List Char :=
  l.map (fun c => if c = '\r' || c = '\n' then ' ' else c)

/-- One pass of Python `text.replace("  ", " ")`: replace non-overlapping
double spaces left to right. -/
def replaceDoubleSpace : List Char → List Char
  | [] => []
  | [c] => [c]
  | c1 :: c2 :: rest =>
    if c1 = ' ' ∧ c2 = ' ' then ' ' :: replaceDoubleSpace rest
    else c1 :: replaceDoubleSpace (c2 :: rest)

/-- Python `"  " in text`. -/
def hasDoubleSpace : List Char → Bool
  | [] => false
  | [_] => false
  | c1 :: c2 :: rest => (c1 = ' ' && c2 = ' ') || hasDoubleSpace (c2 :: rest)

lemma replaceDoubleSpace_length_le : ∀ l : List Char,
    (replaceDoubleSpace l).length ≤ l.length
  | [] => le_refl _
  | [_] => le_refl _
  | c1 :: c2 :: rest => by
    simp only [replaceDoubleSpace]
    split_ifs
    · have := replaceDoubleSpace_length_le rest
      simp only [List.length_cons]
      omega
    · have := replaceDoubleSpace_length_le (c2 :: rest)
      simp only [List.length_cons] at this ⊢
      omega

lemma replaceDoubleSpace_length_lt : ∀ l : List Char, hasDoubleSpace l = true →
    (replaceDoubleSpace l).length < l.length
  | [] => by intro h; simp [hasDoubleSpace] at h
  | [_] => by intro h; simp [hasDoubleSpace] at h
  | c1 :: c2 :: rest => by
    intro h
    simp only [replaceDoubleSpace]
    split_ifs with hsp
    · have := replaceDoubleSpace_length_le rest
      simp only [List.length_cons]
      omega
    · have hrest : hasDoubleSpace (c2 :: rest) = true := by
        simp only [hasDoubleSpace, Bool.or_eq_true, Bool.and_eq_true, decide_eq_true_eq] at h ⊢
        rcases h with ⟨h1, h2⟩ | h
        · exact absurd ⟨h1, h2⟩ hsp
        · exact h
      have := replaceDoubleSpace_length_lt (c2 :: rest) hrest
      simp only [List.length_cons] at this ⊢
      omega

/-- The `while "  " in text:` loop of `_clean_text`. -/
def collapseSpaces (l : List Char) : List Char :=
  if h : hasDoubleSpace l = true then collapseSpaces (replaceDoubleSpace l) else l
termination_by l.length
decreasing_by exact replaceDoubleSpace_length_lt l h

/-- `_clean_text`: map line breaks to spaces, collapse runs of spaces,
then strip. -/
def cleanText (l : List Char) : List Char :=
  pyStrip (collapseSpaces (replaceNewlines l))

/-- Python `text.split(". ")`: split on non-overlapping left-to-right
occurrences of the two-character separator, keeping empty parts.
`acc` holds the characters of the current part, reversed. -/
def splitDotSpace : List Char → List Char → List (List Char)
  | acc, [] => [acc.reverse]
  | acc, [c] => [(c :: acc).reverse]
  | acc, c1 :: c2 :: rest =>
    if c1 = '.' ∧ c2 = ' ' then acc.reverse :: splitDotSpace [] rest
    else splitDotSpace (c1 :: acc) (c2 :: rest)

/-- The number of (non-overlapping, left-to-right) `". "` sentence
boundaries in a text. -/
def countDotSpace : List Char → Nat
  | [] => 0
  | [_] => 0
  | c1 :: c2 :: rest =>
    if c1 = '.' ∧ c2 = ' ' then countDotSpace rest + 1
    else countDotSpace (c2 :: rest)

lemma splitDotSpace_length : ∀ (acc l : List Char),
    (splitDotSpace acc l).length = countDotSpace l + 1
  | _, [] => rfl
  | _, [_] => rfl
  | acc, c1 :: c2 :: rest => by
    simp only [splitDotSpace, countDotSpace]
    split_ifs
    · simp only [List.length_cons, splitDotSpace_length [] rest]
    · exact splitDotSpace_length (c1 :: acc) (c2 :: rest)

/-- The final `if not kept.endswith("."): kept += "."` of
`_keep_first_sentences`. -/
def appendDotIfMissing (kept : List Char) : List Char :=
  if kept.getLast? = some '.' then kept else kept ++ ['.']

/-- `_keep_first_sentences(text, max_sentences)`: clean the text, split on
`". "`, return the cleaned text whole when there are at most
`max_sentences` parts, otherwise rejoin the first `max_sentences` parts
with `". "`, strip, and append a final period when missing. -/
def keep_first_sentences (text : List Char) (max_sentences : Nat) : List Char :=
  if (splitDotSpace [] (cleanText text)).length ≤ max_sentences then cleanText text
  else
    appendDotIfMissing (pyStrip (List.intercalate ['.', ' ']
      ((splitDotSpace [] (cleanText text)).take max_sentences)))

/-- The snippet built for one retrieved chunk inside
`answer_question_extractive`: truncate the chunk text to
`max_chunk_chars` characters, then keep the first 3 sentences. -/
def snippetOf (text : List Char) (max_chunk_chars : Nat) : List Char :=
  keep_first_sentences (text.take max_chunk_chars) 3

/-- C6: for every retrieved chunk text and every `max_chunk_chars`, the
snippet is built by first truncating to `max_chunk_chars` characters, then
cleaning whitespace; when the cleaned, truncated text has fewer than 3
`". "` sentence boundaries it is kept whole and unchanged, and otherwise
only the first 3 sentences are kept, with a period appended after trimming
when the result does not already end with one. -/
theorem snippet_caps_then_keeps_three_sentences (t : List Char) (mcc : Nat) :
    snippetOf t mcc =
      if countDotSpace (cleanText (t.take mcc)) < 3 then cleanText (t.take mcc)
      else
        appendDotIfMissing (pyStrip (List.intercalate ['.', ' ']
          ((splitDotSpace [] (cleanText (t.take mcc))).take 3))) := by
  unfold snippetOf keep_first_sentences
  have h := splitDotSpace_length [] (cleanText (t.take mcc))
  split_ifs <;> first | rfl | omega

/-- `os.path.basename` for the forward-slash paths used by the app. -/
def pyBasename (s : String) : String := (s.splitOn "/").getLastD s

/-- One entry of the `sources` list returned by
`answer_question_extractive`. -/
structure SourceEntry where
  filename : String
  score : ℚ
  chunk_index : Nat
  snippet : List Char
deriving DecidableEq

/-- The `{question, answer, sources}` result of
`answer_question_extractive`. -/
structure AnswerResult where
  question : String
  answer : String
  sources : List SourceEntry
deriving DecidableEq

/-- The fixed answer returned when retrieval comes back empty (the two
adjacent string literals of the source concatenate to this text). -/
def noResultsMessage : String :=
  "I could not find any relevant information about this in the loaded documents. Please check that the PDFs contain information about this topic."

def introLine : String := "Here is what the documents say about your question:"

def disclaimerLine : String :=
  "This summary is built directly from the brochures. It is general information and does **not** replace the opinion of a healthcare professional."

/-- The bullet line built for one retrieved chunk. -/
def mkBullet (filename : String) (snippet : List Char) : String :=
  "- From **" ++ filename ++ "**: " ++ String.mk snippet

/-- `answer_question_extractive(query, doc_embeddings, metadata, k,
max_chunk_chars)` from `src/rag_pipeline.py`: retrieve, return the fixed
no-results answer on an empty result list, otherwise build one bullet and
one source entry per retrieved chunk and join the explanation lines. -/
def answer_question_extractive (argsort : List ℚ → List Nat)
    (embedQuery : String → List ℚ) (query : String)
    (doc_embeddings : List (List ℚ)) (metadata : List ChunkMeta)
    (k : Nat) (max_chunk_chars : Nat) : AnswerResult :=
  let results := retrieve_top_k argsort embedQuery query doc_embeddings metadata k
  if results.isEmpty then
    ⟨query, noResultsMessage, []⟩
  else
    let processed := results.map (fun r =>
      let snip := snippetOf r.text max_chunk_chars
      let filename := pyBasename r.filename
      (mkBullet filename snip, SourceEntry.mk filename r.score r.chunk_index snip))
    let answer_text := String.intercalate "\n"
      ([introLine, ""] ++ processed.map Prod.fst ++ ["", disclaimerLine])
    ⟨query, answer_text, processed.map Prod.snd⟩

/-- `pat` occurs as a contiguous substring. -/
def isPre : List Char → List Char → Bool
  | [], _ => true
  | _ :: _, [] => false
  | a :: as, b :: bs => a = b && isPre as bs

def occursIn (pat : List Char) : List Char → Bool
  | [] => isPre pat []
  | c :: rest => isPre pat (c :: rest) || occursIn pat rest

/-- C9: whenever retrieval returns an empty list, the composed answer has an
empty sources list and the fixed answer string, which contains the
"could not find" message — no failure is raised. -/
theorem compose_answer_no_results (argsort : List ℚ → List Nat)
    (embedQuery : String → List ℚ) (query : String)
    (dembs : List (List ℚ)) (md : List ChunkMeta) (k mcc : Nat)
    (h : retrieve_top_k argsort embedQuery query dembs md k = []) :
    (answer_question_extractive argsort embedQuery query dembs md k mcc).sources = [] ∧
    (answer_question_extractive argsort embedQuery query dembs md k mcc).answer
        = noResultsMessage ∧
    occursIn "could not find".data noResultsMessage.data = true := by
  unfold answer_question_extractive
  rw [h]
  exact ⟨rfl, rfl, by decide⟩

/-- Witness for C9 at a concrete input (a query against the empty index). -/
theorem compose_answer_no_results_witness :
    retrieve_top_k antiStableArgsort zeroEmbed "what is an MRI" [] [] 3 = [] ∧
    ((answer_question_extractive antiStableArgsort zeroEmbed "what is an MRI" [] [] 3 600).sources
        = [] ∧
     (answer_question_extractive antiStableArgsort zeroEmbed "what is an MRI" [] [] 3 600).answer
        = noResultsMessage ∧
     occursIn "could not find".data noResultsMessage.data = true) :=
  ⟨rfl, compose_answer_no_results antiStableArgsort zeroEmbed "what is an MRI" [] [] 3 600 rfl⟩

/-! ## Ingestion (`src/ingestion.py`)

`extract_text_from_pdf` delegates to an external PDF parser that can raise
on a malformed document; it is the parameter `pdfExtract`. The `.txt`
decoder uses `errors="ignore"` and is total: parameter `txtExtract`.
The loop body of `extract_texts_from_files` contains no exception handler,
so a raised parse error propagates out of the whole call; the result dict
(insertion-ordered, filenames assumed distinct) is an association list. -/

structure FileObj where
  name : String
  content : List Char
deriving DecidableEq

/-- `filename.lower()`. -/
def lowerChars (s : String) : List Char := s.data.map Char.toLower

/-- `filename.lower().split(".")[-1]`: the text after the last dot (the
whole name when there is no dot). -/
def lastDotComponent : List Char → List Char → List Char
  | acc, [] => acc.reverse
  | acc, c :: rest =>
    if c = '.' then lastDotComponent [] rest else lastDotComponent (c :: acc) rest

def suffixOf (filename : String) : List Char := lastDotComponent [] (lowerChars filename)

/-- `extract_texts_from_files(files)`: per file, dispatch on the filename
suffix; a parse failure raised by the PDF extractor propagates and aborts
the remaining iterations (there is no try/except in the source loop). -/
def extract_texts_from_files (pdfExtract : FileObj → Except String (List Char))
    (txtExtract : FileObj → List Char) :
    List FileObj → Except String (List (String × List Char))
  | [] => Except.ok []
  | f :: rest =>
    match (if suffixOf f.name = "pdf".data then pdfExtract f
           else if suffixOf f.name = "txt".data then Except.ok (txtExtract f)
           else Except.ok []) with
    | Except.error e => Except.error e
    | Except.ok text =>
      match extract_texts_from_files pdfExtract txtExtract rest with
      | Except.error e => Except.error e
      | Except.ok others => Except.ok ((f.name, text) :: others)

/-- A PDF extractor that fails on every document, standing for a parser
raising on a corrupt file. -/
def failingPdfExtract : FileObj → Except String (List Char) :=
  fun _ => Except.error "EOF marker not found"

/-- The tolerant text decoder, which never fails. -/
def identityTxtExtract : FileObj → List Char := fun f => f.content

def corruptPdfFile : FileObj := ⟨"corrupt.pdf", []⟩

def healthyTxtFile : FileObj := ⟨"healthy.txt", "Drink water.".data⟩

/-- C7 fails on the code: when one document's parse raises, the whole batch
is aborted — the healthy sibling that extracts fine on its own is not
extracted, in either batch order. The spec requires the failing document to
be skipped with the others proceeding; the source loop has no exception
handling at all. -/
theorem extraction_failure_aborts_batch :
    extract_texts_from_files failingPdfExtract identityTxtExtract
        [corruptPdfFile, healthyTxtFile] = Except.error "EOF marker not found" ∧
    extract_texts_from_files failingPdfExtract identityTxtExtract
        [healthyTxtFile, corruptPdfFile] = Except.error "EOF marker not found" ∧
    extract_texts_from_files failingPdfExtract identityTxtExtract
        [healthyTxtFile] = Except.ok [("healthy.txt", "Drink water.".data)] :=
  ⟨rfl, rfl, rfl⟩
